import Mathlib

/-!
Verification development for the OpenConnectCompanion FIT-file ingestion
pipeline.  The definitions below are a shallow embedding of the Python
source (`app.py` and `app/services/*.py`): numeric sensor values and
timestamps are modelled as rationals, Python dictionary fields holding
possibly-missing values are modelled as `Option`, and the SQLite store
plus on-disk files are modelled as an explicit `ServerState` record that
every stateful operation threads through.  Failure of the external FIT
decoder and of the database insert is injected through boolean flags,
mirroring the `try/except` structure of the source.
-/

namespace OCC

/-- One entry of `sensor_records` in `parse_fit_file` (`app.py`).  The
Python code builds a dict holding only the keys whose decoded value was
not `None` (line 252), so a missing key and a `None` value coincide and
both are modelled as `none`. -/
structure SRecord where
  timestamp : Option ℚ := none
  distance : Option ℚ := none
  speed : Option ℚ := none
  heart_rate : Option ℚ := none
  power : Option ℚ := none
  cadence : Option ℚ := none
  altitude : Option ℚ := none
  position_lat : Option ℚ := none
  position_long : Option ℚ := none
  calculated_speed : Option ℚ := none
deriving DecidableEq, Repr

/-- The body of the speed-derivation loop of `parse_fit_file`
(`app.py` lines 275-321) for one record.  `prev?` is
`sensor_records[i-1]` (`none` when `i = 0`).  Returns the processed
record, the value appended to `calculated_speeds` (if any) and the value
appended to `all_speeds` (if any).  Timestamps are already parsed
rationals, so `parse_timestamp_with_timezone` always succeeds here, as
it does in the source on the strings it itself produced. -/
def processRecord (prev? : Option SRecord) (r : SRecord) : SRecord × Option ℚ × Option ℚ :=
  match prev?, r.distance, r.timestamp with
  | some prev, some d, some t =>
    match prev.distance, prev.timestamp with
    | some pd, some pt =>
      let time_diff := t - pt
      if 0 < time_diff then
        let distance_diff := d - pd
        if 0 ≤ distance_diff then
          let v := distance_diff / time_diff
          if 0.14 ≤ v ∧ v ≤ 22 then
            let newSpeed := match r.speed with
              | some s => some s
              | none => some v
            ({ r with calculated_speed := some v, speed := newSpeed }, some v, newSpeed)
          else
            (r, none, r.speed)
        else (r, none, none)
      else (r, none, none)
    | _, _ => (r, none, none)
  | _, _, _ =>
    match r.speed with
    | some v =>
      if 0 ≤ v ∧ v ≤ 22 then (r, none, some v)
      else ({ r with speed := none }, none, none)
    | none => (r, none, none)

/-- The speed-derivation loop of `parse_fit_file`: iterates the original
`sensor_records` list, each step consulting the original predecessor
record, and accumulates `processed_sensor_data`, `calculated_speeds`
and `all_speeds` in encounter order. -/
def processLoop (prev? : Option SRecord) : List SRecord → List SRecord × List ℚ × List ℚ
  | [] => ([], [], [])
  | r :: rs =>
    let step := processRecord prev? r
    let rest := processLoop (some r) rs
    (step.1 :: rest.1, step.2.1.toList ++ rest.2.1, step.2.2.toList ++ rest.2.2)

/-- `processed_sensor_data` of `parse_fit_file`. -/
def processedSensorData (records : List SRecord) : List SRecord :=
  (processLoop none records).1

/-- The `calculated_speeds` list of `parse_fit_file`. -/
def calculatedSpeeds (records : List SRecord) : List ℚ :=
  (processLoop none records).2.1

/-- The `all_speeds` list of `parse_fit_file`. -/
def allSpeeds (records : List SRecord) : List ℚ :=
  (processLoop none records).2.2

/-- The original predecessor `sensor_records[i-1]`, `none` at `i = 0`. -/
def prevAt (records : List SRecord) (i : Nat) : Option SRecord :=
  if i = 0 then none else records.get? (i - 1)

/-- The `chart_data` dict of `parse_fit_file` (`app.py` lines 349-366):
six parallel arrays of optional values. -/
structure ChartData where
  timestamps : List (Option ℚ)
  heart_rate : List (Option ℚ)
  power : List (Option ℚ)
  cadence : List (Option ℚ)
  speed : List (Option ℚ)
  distance : List (Option ℚ)
deriving DecidableEq, Repr

/-- The chart value `record.get('speed', record.get('calculated_speed'))`:
the effective speed, falling back to the derived value when no speed
entry is present. -/
def chartSpeedOf (r : SRecord) : Option ℚ :=
  match r.speed with
  | some v => some v
  | none => r.calculated_speed

/-- One iteration of the chart-assembly loop: a record is appended to all
six arrays exactly when it carries a timestamp. -/
def chartStep (cd : ChartData) (r : SRecord) : ChartData :=
  if r.timestamp.isSome then
    { timestamps := cd.timestamps ++ [r.timestamp]
      heart_rate := cd.heart_rate ++ [r.heart_rate]
      power := cd.power ++ [r.power]
      cadence := cd.cadence ++ [r.cadence]
      speed := cd.speed ++ [chartSpeedOf r]
      distance := cd.distance ++ [r.distance] }
  else cd

/-- The chart-assembly loop of `parse_fit_file` over
`processed_sensor_data`. -/
def chartData (records : List SRecord) : ChartData :=
  records.foldl chartStep ⟨[], [], [], [], [], []⟩

/-- Python `sum(l) / len(l)` on a non-empty list of rationals. -/
def avgQ (l : List ℚ) : ℚ := l.sum / (l.length : ℚ)

/-- Python `max(l)` on a non-empty list (junk value 0 on `[]`, which the
source never evaluates because every use is guarded by a
non-emptiness check). -/
def maxQ : List ℚ → ℚ
  | [] => 0
  | x :: xs => xs.foldl max x

/-- Python `min(l)` on a non-empty list (junk value 0 on `[]`). -/
def minQ : List ℚ → ℚ
  | [] => 0
  | x :: xs => xs.foldl min x

/-- Python truthiness of an optional numeric field: `None` and `0` are
falsy. -/
def truthy : Option ℚ → Bool
  | none => false
  | some v => v != 0

/-- Python `a or b` on optional numeric values (used at
`app.py` lines 448-449). -/
def orFalsy (a b : Option ℚ) : Option ℚ :=
  if truthy a then a else b

/-- The speed entries of `parsed_data['metrics']` after the aggregation
block of `parse_fit_file` (lines 325-345): `speedAvg`/`speedMax` are
`metrics['speed']['avg'|'max']`, the `calc*` fields are
`metrics['calculated_speed']`. -/
structure ParsedSpeedMetrics where
  speedAvg : Option ℚ
  speedMax : Option ℚ
  calcAvg : Option ℚ
  calcMax : Option ℚ
  calcMin : Option ℚ
deriving DecidableEq, Repr

/-- The speed-aggregation block of `parse_fit_file` (`app.py` lines
325-345).  `sessionAvg`/`sessionMax` are the values the session message
had already placed in `metrics['speed']` (possibly absent). -/
def finalizeSpeedMetrics (sessionAvg sessionMax : Option ℚ)
    (all_speeds calculated_speeds : List ℚ) : ParsedSpeedMetrics :=
  if all_speeds.isEmpty then
    ⟨sessionAvg, sessionMax, none, none, none⟩
  else
    let calcAgg : Option ℚ × Option ℚ × Option ℚ :=
      if calculated_speeds.isEmpty then (none, none, none)
      else (some (avgQ calculated_speeds), some (maxQ calculated_speeds),
        some (minQ calculated_speeds))
    let avgOut := if truthy sessionAvg then sessionAvg else some (avgQ all_speeds)
    let maxOut := if truthy sessionMax then sessionMax else some (maxQ all_speeds)
    ⟨avgOut, maxOut, calcAgg.1, calcAgg.2.1, calcAgg.2.2⟩

/-- The `avg_speed_mps` column value computed in `store_workout_metadata`
(`app.py` line 448): `calculated_speed.avg or speed.avg`. -/
def storedAvgSpeed (m : ParsedSpeedMetrics) : Option ℚ :=
  orFalsy m.calcAvg m.speedAvg

/-- The `max_speed_mps` column value computed in `store_workout_metadata`
(`app.py` line 449): `calculated_speed.max or speed.max`. -/
def storedMaxSpeed (m : ParsedSpeedMetrics) : Option ℚ :=
  orFalsy m.calcMax m.speedMax

/-- One raw entry of `parsed_data['gps_data']`. -/
structure GpsPoint where
  lat : Option ℚ := none
  lon : Option ℚ := none
  altitude : Option ℚ := none
  timestamp : Option ℚ := none
deriving DecidableEq, Repr

/-- A validated point of `processed_gps_data`. -/
structure ProcessedGpsPoint where
  lat : ℚ
  lon : ℚ
  timestamp : Option ℚ
  altitude : Option ℚ
deriving DecidableEq, Repr

/-- The per-coordinate conversion of `get_workout_map_data` /
`_extract_valid_gps_points`: `if abs(x) > 180: x = x * (180 / 2**31)`. -/
def convertCoordinate (x : ℚ) : ℚ :=
  if 180 < |x| then x * (180 / 2 ^ 31) else x

/-- The per-point body of the GPS validation loop (`app.py` lines
960-977 and 1260-1275): convert each coordinate independently, then
accept only in-range, non-(0,0) points; rejected points yield nothing. -/
def processGpsPoint (p : GpsPoint) : Option ProcessedGpsPoint :=
  match p.lat, p.lon with
  | some rawLat, some rawLon =>
    let lat := convertCoordinate rawLat
    let lon := convertCoordinate rawLon
    if -90 ≤ lat ∧ lat ≤ 90 ∧ -180 ≤ lon ∧ lon ≤ 180 ∧ ¬(lat = 0 ∧ lon = 0) then
      some ⟨lat, lon, p.timestamp, p.altitude⟩
    else none
  | _, _ => none

/-- `processed_gps_data`: the accepted points in input order. -/
def processedGpsData (gps_data : List GpsPoint) : List ProcessedGpsPoint :=
  gps_data.filterMap processGpsPoint

/-- The `bounds` dict of `get_workout_map_data`. -/
structure GpsBounds where
  north : ℚ
  south : ℚ
  east : ℚ
  west : ℚ
deriving DecidableEq, Repr

/-- The `stats` block of `get_workout_map_data` (`app.py` lines
979-1003): `none` models the 404 returned when no valid point remains;
otherwise total count, first point, last point and the bounding box. -/
def gpsStats (pts : List ProcessedGpsPoint) :
    Option (Nat × ProcessedGpsPoint × ProcessedGpsPoint × GpsBounds) :=
  match pts with
  | [] => none
  | p :: ps =>
    let lats := (p :: ps).map ProcessedGpsPoint.lat
    let lons := (p :: ps).map ProcessedGpsPoint.lon
    some ((p :: ps).length, p, ps.getLastD p,
      ⟨maxQ lats, minQ lats, maxQ lons, minQ lons⟩)

/-- `calculate_file_hash` (`app.py` line 165): SHA-256 of the raw bytes.
The digest is idealized as the byte content itself, i.e. as a perfectly
collision-resistant content fingerprint; the pipeline uses it only as a
dedup key, so injectivity is the only property it relies on. -/
def calculate_file_hash (file_data : List Nat) : List Nat := file_data

/-- A stored on-disk artifact, identified by the hash of the content it
belongs to.  `raw h` abstracts the raw-file path
`{timestamp}_{hash[:8]}_{name}` under `UPLOAD_FOLDER`; `parsed h`
abstracts `parsed_data/{hash}.json`. -/
inductive StorePath where
  | raw (hash : List Nat)
  | parsed (hash : List Nat)
deriving DecidableEq, Repr

/-- One row of the `workouts` table (the columns the ingestion and
deletion logic reads). -/
structure WorkoutRow where
  id : Nat
  file_hash : List Nat
  file_path : StorePath
  parsed_data_path : StorePath
deriving DecidableEq, Repr

/-- The persistent state: `workouts` rows (in insertion order, with the
autoincrement counter) plus the set of files on disk. -/
structure ServerState where
  rows : List WorkoutRow
  next_id : Nat
  files : List StorePath
deriving DecidableEq, Repr

def emptyState : ServerState := ⟨[], 0, []⟩

/-- `SELECT ... FROM workouts WHERE file_hash = ?` with `fetchone`. -/
def findByHash (rows : List WorkoutRow) (h : List Nat) : Option WorkoutRow :=
  rows.find? (fun r => r.file_hash == h)

/-- Writing a file: at most one copy of a path exists on disk. -/
def writeFile (files : List StorePath) (p : StorePath) : List StorePath :=
  if p ∈ files then files else p :: files

/-- `os.remove`. -/
def removeFile (files : List StorePath) (p : StorePath) : List StorePath :=
  files.filter (fun q => q != p)

/-- `store_workout_metadata` (`app.py` lines 407-464) reduced to its
effect on the modelled state: it first writes the parsed-data JSON
artifact, then runs the `INSERT OR REPLACE` (no row with this hash
exists at any call site, so it is a plain insert); `dbOk = false`
injects a failure of the insert, after which the transaction is rolled
back and `None` is returned — the already-written artifact is not
removed by the handler. -/
def store_workout_metadata (h : List Nat) (file_path : StorePath) (dbOk : Bool)
    (st : ServerState) : Option Nat × ServerState :=
  let files' := writeFile st.files (StorePath.parsed h)
  if dbOk then
    (some st.next_id,
      { rows := st.rows ++ [⟨st.next_id, h, file_path, StorePath.parsed h⟩]
        next_id := st.next_id + 1
        files := files' })
  else
    (none, { st with files := files' })

/-- The `ImportOutcome` of one ingestion attempt: HTTP 201 with the new
id, HTTP 409 with the existing id, or a failure response. -/
inductive Outcome where
  | imported (id : Nat)
  | duplicate (id : Nat)
  | failed
deriving DecidableEq, Repr

/-- `upload_fit_file` (`app.py` lines 1058-1116): hash, duplicate check,
raw-file write, parse (`parseOk = false` injects a decode failure, after
which the raw file is removed), then `store_workout_metadata` (whose
`None` return also removes the raw file). -/
def upload_fit_file (content : List Nat) (parseOk dbOk : Bool)
    (st : ServerState) : Outcome × ServerState :=
  let h := calculate_file_hash content
  match findByHash st.rows h with
  | some existing => (.duplicate existing.id, st)
  | none =>
    let rawP := StorePath.raw h
    let st1 := { st with files := writeFile st.files rawP }
    if parseOk then
      match store_workout_metadata h rawP dbOk st1 with
      | (some wid, st2) => (.imported wid, st2)
      | (none, st2) => (.failed, { st2 with files := removeFile st2.files rawP })
    else
      (.failed, { st1 with files := removeFile st1.files rawP })

/-- Result of `delete_workout`: 404, or 200 with the number of file
removals that failed (reported in `files_failed`). -/
inductive DeleteOutcome where
  | notFound
  | deleted (failedRemovals : Nat)
deriving DecidableEq, Repr

/-- The `if path and os.path.exists(path): try: os.remove(path) except
OSError: record failure` block of `delete_workout`, for one file;
`ok = false` injects the `OSError`.  Returns the surviving file list and
the number of failures (0 or 1) appended to `files_failed`. -/
def tryRemove (files : List StorePath) (p : StorePath) (ok : Bool) :
    List StorePath × Nat :=
  if p ∈ files then
    if ok then (removeFile files p, 0) else (files, 1)
  else (files, 0)

/-- `delete_workout` (`app.py` lines 1010-1056): look the row up, delete
it and commit, then best-effort-remove the raw file and the parsed
artifact; an `OSError` of either removal (`rawOk`/`parsedOk` = false)
is caught and merely reported. -/
def delete_workout (workout_id : Nat) (rawOk parsedOk : Bool)
    (st : ServerState) : DeleteOutcome × ServerState :=
  match st.rows.find? (fun r => r.id == workout_id) with
  | none => (.notFound, st)
  | some r =>
    let rows' := st.rows.filter (fun q => q.id != workout_id)
    let step1 := tryRemove st.files r.file_path rawOk
    let step2 := tryRemove step1.1 r.parsed_data_path parsedOk
    (.deleted (step1.2 + step2.2), ⟨rows', st.next_id, step2.1⟩)

/-- One `.fit` file discovered on a device during a scan, together with
the injected behaviour of the external collaborators on it: `readOk`
models the `open`/`read` I/O, `parseOk` the FIT decode, `dbOk` the
database insert. -/
structure FitFileEntry where
  content : List Nat
  readOk : Bool := true
  parseOk : Bool := true
  dbOk : Bool := true
deriving DecidableEq, Repr

/-- The kind of message appended to `results['errors']` for one file. -/
inductive ScanError where
  | readError
  | parseError
  | storeError
deriving DecidableEq, Repr

/-- The `results` aggregate of `scan_and_upload_fit_files`. -/
structure ScanResults where
  devices_scanned : Nat
  files_found : Nat
  files_uploaded : Nat
  files_skipped : Nat
  errors : List ScanError
deriving DecidableEq, Repr

/-- The per-file body of `scan_and_upload_fit_files` (`app.py` lines
615-664).  Any failure is caught, recorded in `errors`, and processing
falls through to the next file. -/
def processScanFile (acc : ScanResults × ServerState) (f : FitFileEntry) :
    ScanResults × ServerState :=
  let res := acc.1
  let st := acc.2
  if !f.readOk then
    ({ res with errors := res.errors ++ [.readError] }, st)
  else
    let h := calculate_file_hash f.content
    match findByHash st.rows h with
    | some _ => ({ res with files_skipped := res.files_skipped + 1 }, st)
    | none =>
      let rawP := StorePath.raw h
      let st1 := { st with files := writeFile st.files rawP }
      if f.parseOk then
        match store_workout_metadata h rawP f.dbOk st1 with
        | (some _, st2) =>
          ({ res with files_uploaded := res.files_uploaded + 1 }, st2)
        | (none, st2) =>
          ({ res with errors := res.errors ++ [.storeError] },
            { st2 with files := removeFile st2.files rawP })
      else
        ({ res with errors := res.errors ++ [.parseError] },
          { st1 with files := removeFile st1.files rawP })

/-- The per-device body of `scan_and_upload_fit_files`: count the files
found on the device, then process each in turn. -/
def processScanDevice (acc : ScanResults × ServerState)
    (device : List FitFileEntry) : ScanResults × ServerState :=
  device.foldl processScanFile
    ({ acc.1 with files_found := acc.1.files_found + device.length }, acc.2)

/-- `scan_and_upload_fit_files` (`app.py` lines 562-681): record the
number of matched devices, then scan each device's discovered files. -/
def scan_and_upload_fit_files (devices : List (List FitFileEntry))
    (st : ServerState) : ScanResults × ServerState :=
  devices.foldl processScanDevice
    (⟨devices.length, 0, 0, 0, []⟩, st)

/-- The session-level fields of the normalized-schema parser
(`app/services/fit_parser.py`) that the power block touches. -/
structure ActivityMeta where
  duration_s : Option ℚ := none
  avg_power : Option ℚ := none
  tss : Option ℚ := none
deriving DecidableEq, Repr

/-- The TSS block of `parse_fit` (`fit_parser.py` lines 89-99): when the
record-message power stream holds at least one non-null value, overwrite
`avg_power` with the stream mean and set
`tss = (avg/250)^2 * (duration_s/3600) * 100`, where the Python
`activity_meta.get("duration_s") or len(avg_power_vals) * 1` makes
`duration_s` fall back to the sample count when the session value is
`None` *or zero* (falsy). -/
def applyPowerTss (meta : ActivityMeta) (power : List (Option ℚ)) : ActivityMeta :=
  if !power.isEmpty && power.any (fun p => p.isSome) then
    let avg_power_vals := power.filterMap id
    if !avg_power_vals.isEmpty then
      let avg := avg_power_vals.sum / (avg_power_vals.length : ℚ)
      let duration_s : ℚ :=
        match meta.duration_s with
        | some d => if d = 0 then (avg_power_vals.length : ℚ) else d
        | none => (avg_power_vals.length : ℚ)
      let intensity := avg / 250
      { meta with avg_power := some avg
                  tss := some (intensity ^ 2 * (duration_s / 3600) * 100) }
    else meta
  else meta

/-- If `find?` misses on `l₁`, appending a matching element is found. -/
theorem findByHash_append_single (rows : List WorkoutRow) (h : List Nat)
    (row : WorkoutRow) (hnone : findByHash rows h = none)
    (hrow : row.file_hash = h) :
    findByHash (rows ++ [row]) h = some row := by
  unfold findByHash at *
  rw [List.find?_append, hnone]
  simp [List.find?, hrow]

theorem filter_hash_of_find?_none (rows : List WorkoutRow) (h : List Nat)
    (hnone : findByHash rows h = none) :
    rows.filter (fun r => r.file_hash == h) = [] := by
  unfold findByHash at hnone
  rw [List.find?_eq_none] at hnone
  rw [List.filter_eq_nil_iff]
  exact fun r hr => hnone r hr

end OCC

namespace OCC

theorem mem_writeFile_self (files : List StorePath) (p : StorePath) :
    p ∈ writeFile files p := by
  unfold writeFile
  split
  next h => exact h
  next h => exact List.mem_cons_self p files

theorem not_mem_removeFile (files : List StorePath) (p : StorePath) :
    p ∉ removeFile files p := by
  unfold removeFile
  intro hmem
  have := (List.mem_filter.mp hmem).2
  simp at this

theorem not_mem_removeFile_of_not_mem (files : List StorePath) (p q : StorePath)
    (h : q ∉ files) : q ∉ removeFile files p := by
  unfold removeFile
  intro hmem
  exact h (List.mem_filter.mp hmem).1

theorem mem_removeFile_of_ne (files : List StorePath) (p q : StorePath)
    (hmem : q ∈ files) (hne : q ≠ p) : q ∈ removeFile files p := by
  unfold removeFile
  exact List.mem_filter.mpr ⟨hmem, by simpa using hne⟩

theorem tryRemove_not_mem_self (files : List StorePath) (p : StorePath) :
    p ∉ (tryRemove files p true).1 := by
  unfold tryRemove
  split
  next => simpa using not_mem_removeFile files p
  next hmem => simpa using hmem

theorem tryRemove_not_mem (files : List StorePath) (p q : StorePath) (ok : Bool)
    (h : q ∉ files) : q ∉ (tryRemove files p ok).1 := by
  unfold tryRemove
  split
  next =>
    split
    next => exact not_mem_removeFile_of_not_mem _ _ _ h
    next => exact h
  next => exact h

theorem removeFile_writeFile (files : List StorePath) (p : StorePath)
    (h : p ∉ files) : removeFile (writeFile files p) p = files := by
  unfold writeFile removeFile
  rw [if_neg h, List.filter_cons_of_neg (by simp)]
  apply List.filter_eq_self.mpr
  intro a ha
  have hne : a ≠ p := fun heq => h (heq ▸ ha)
  simpa using hne

end OCC

namespace OCC

/-- C1: importing byte-identical content a second time creates no new
row or artifact — the state is untouched, exactly one row keyed by the
content hash exists afterwards — and the second call returns a
`Duplicate` outcome carrying the id of the first import, whatever the
second call's decode/store behaviour would have been. -/
theorem c1_dedup_idempotent (content : List Nat) (p1 d1 p2 d2 : Bool)
    (st st' : ServerState) (x : Nat)
    (h : upload_fit_file content p1 d1 st = (.imported x, st')) :
    upload_fit_file content p2 d2 st' = (.duplicate x, st') ∧
    (st'.rows.filter (fun r => r.file_hash == calculate_file_hash content)).length = 1 := by
  simp only [upload_fit_file, calculate_file_hash] at h ⊢
  split at h
  next existing heq => simp at h
  next heq =>
    cases p1 with
    | false => simp at h
    | true =>
      simp only [if_true, store_workout_metadata] at h
      cases d1 with
      | false => simp at h
      | true =>
        simp only [if_true] at h
        rw [Prod.mk.injEq] at h
        obtain ⟨h1, h2⟩ := h
        injection h1 with hx
        subst hx
        subst h2
        have hrow := findByHash_append_single st.rows content
          ⟨st.next_id, content, StorePath.raw content, StorePath.parsed content⟩ heq rfl
        refine ⟨?_, ?_⟩
        · simp only [hrow]
        · have hfilter := filter_hash_of_find?_none st.rows content heq
          simp [List.filter_append, hfilter]

end OCC

namespace OCC

/-- The state produced by a first successful import of content `[1, 2]`,
used by the C1 witness. -/
def c1State : ServerState := (upload_fit_file [1, 2] true true emptyState).2

/-- Witness for C1 at the concrete content `[1, 2]`. -/
theorem c1_dedup_idempotent_witness :
    upload_fit_file [1, 2] true true emptyState = (.imported 0, c1State) ∧
    (upload_fit_file [1, 2] false false c1State = (.duplicate 0, c1State) ∧
      (c1State.rows.filter (fun r => r.file_hash == calculate_file_hash [1, 2])).length = 1) :=
  ⟨by decide,
    c1_dedup_idempotent [1, 2] true true false false emptyState c1State 0 (by decide)⟩

/-- C3 counterexample: parse succeeds but the database insert fails;
the upload reports failure and rolls back the raw file, yet the
parsed-data artifact written before the insert stays on disk — so a
derived artifact for that content does remain observable after the
failure, contradicting the claim. -/
theorem c3_counterexample :
    (upload_fit_file [3] true false emptyState).1 = .failed ∧
    StorePath.parsed (calculate_file_hash [3]) ∈
      (upload_fit_file [3] true false emptyState).2.files := by
  decide

/-- C3 (amended): on any failed single-file import the written raw file
is deleted and no workout row is created (the table is untouched); when
the decode itself fails the state is fully restored, but when the
database insert fails after the parsed artifact was written, that
artifact remains on disk. -/
theorem c3_failed_import_rollback (content : List Nat) (p d : Bool) (st : ServerState)
    (hmiss : findByHash st.rows (calculate_file_hash content) = none)
    (hraw : StorePath.raw (calculate_file_hash content) ∉ st.files)
    (hfail : p = false ∨ d = false) :
    (upload_fit_file content p d st).1 = .failed ∧
    (upload_fit_file content p d st).2.rows = st.rows ∧
    StorePath.raw (calculate_file_hash content) ∉ (upload_fit_file content p d st).2.files ∧
    (p = false → (upload_fit_file content p d st).2 = st) ∧
    (p = true → d = false →
      StorePath.parsed (calculate_file_hash content) ∈
        (upload_fit_file content p d st).2.files) := by
  simp only [calculate_file_hash] at hmiss hraw ⊢
  simp only [upload_fit_file, calculate_file_hash, hmiss]
  cases p with
  | false =>
    simp only [Bool.false_eq_true, if_false]
    rw [removeFile_writeFile st.files _ hraw]
    refine ⟨by simp, by simp, hraw, by simp, by simp⟩
  | true =>
    cases d with
    | false =>
      simp only [if_true, store_workout_metadata, Bool.false_eq_true, if_false]
      refine ⟨by simp, by simp, not_mem_removeFile _ _, by simp, ?_⟩
      intro _ _
      exact mem_removeFile_of_ne _ _ _
        (mem_writeFile_self (writeFile st.files (StorePath.raw content))
          (StorePath.parsed content)) (by simp)
    | true => simp at hfail

/-- Witness for the amended C3 at content `[3]` with a failing insert. -/
theorem c3_failed_import_rollback_witness :
    findByHash emptyState.rows (calculate_file_hash [3]) = none ∧
    StorePath.raw (calculate_file_hash [3]) ∉ emptyState.files ∧
    ((upload_fit_file [3] true false emptyState).1 = .failed ∧
      (upload_fit_file [3] true false emptyState).2.rows = emptyState.rows ∧
      StorePath.raw (calculate_file_hash [3]) ∉ (upload_fit_file [3] true false emptyState).2.files ∧
      (true = false → (upload_fit_file [3] true false emptyState).2 = emptyState) ∧
      (true = true → false = false →
        StorePath.parsed (calculate_file_hash [3]) ∈
          (upload_fit_file [3] true false emptyState).2.files)) :=
  ⟨by decide, by decide,
    c3_failed_import_rollback [3] true false emptyState (by decide) (by decide)
      (Or.inr rfl)⟩

end OCC

namespace OCC

/-- The state holding one fully imported workout (id 0, content `[4]`),
used by the C9 theorems. -/
def c9State : ServerState := (upload_fit_file [4] true true emptyState).2

/-- C9 counterexample: when removing the raw file fails (the `OSError`
branch of `delete_workout`), the handler still reports success, the
database row is gone, but the raw file remains — a state in which some
but not all of the three parts have been removed is observable to every
subsequent query. -/
theorem c9_counterexample :
    (delete_workout 0 false true c9State).1 = .deleted 1 ∧
    (delete_workout 0 false true c9State).2.rows = [] ∧
    StorePath.raw (calculate_file_hash [4]) ∈ (delete_workout 0 false true c9State).2.files := by
  decide

/-- C9 (amended): deleting an existing workout always removes its
database row; the stored raw file and the derived artifact are each
removed exactly when their removal succeeds, so all three are gone
together whenever both file removals succeed, while a failed removal
leaves that file behind (reported in the response) with the row already
deleted. -/
theorem c9_delete_together (workout_id : Nat) (rawOk parsedOk : Bool)
    (st : ServerState) (r : WorkoutRow)
    (hr : st.rows.find? (fun q => q.id == workout_id) = some r) :
    (delete_workout workout_id rawOk parsedOk st).1 ≠ .notFound ∧
    (delete_workout workout_id rawOk parsedOk st).2.rows.filter
      (fun q => q.id == workout_id) = [] ∧
    (rawOk = true →
      r.file_path ∉ (delete_workout workout_id rawOk parsedOk st).2.files) ∧
    (parsedOk = true →
      r.parsed_data_path ∉ (delete_workout workout_id rawOk parsedOk st).2.files) := by
  simp only [delete_workout, hr]
  refine ⟨by simp, ?_, ?_, ?_⟩
  · rw [List.filter_filter]
    apply List.filter_eq_nil_iff.mpr
    intro a _
    cases hbeq : a.id == workout_id <;> simp [bne, hbeq]
  · intro hrawOk
    subst hrawOk
    exact tryRemove_not_mem _ _ _ _ (tryRemove_not_mem_self st.files r.file_path)
  · intro hparsedOk
    subst hparsedOk
    exact tryRemove_not_mem_self _ _

/-- Witness for the amended C9: a successful deletion of workout 0. -/
theorem c9_delete_together_witness :
    c9State.rows.find? (fun q => q.id == 0) =
      some ⟨0, [4], StorePath.raw [4], StorePath.parsed [4]⟩ ∧
    ((delete_workout 0 true true c9State).1 ≠ .notFound ∧
      (delete_workout 0 true true c9State).2.rows.filter (fun q => q.id == 0) = [] ∧
      (true = true →
        (⟨0, [4], StorePath.raw [4], StorePath.parsed [4]⟩ : WorkoutRow).file_path ∉
          (delete_workout 0 true true c9State).2.files) ∧
      (true = true →
        (⟨0, [4], StorePath.raw [4], StorePath.parsed [4]⟩ : WorkoutRow).parsed_data_path ∉
          (delete_workout 0 true true c9State).2.files)) :=
  ⟨by decide,
    c9_delete_together 0 true true c9State
      ⟨0, [4], StorePath.raw [4], StorePath.parsed [4]⟩ (by decide)⟩

end OCC

namespace OCC

/-- Each scanned file moves exactly one of the three per-file counters
(uploaded, skipped, error list) by one and leaves the device/file
discovery counters alone, whatever its injected behaviour. -/
theorem processScanFile_counts (acc : ScanResults × ServerState) (f : FitFileEntry) :
    (processScanFile acc f).1.devices_scanned = acc.1.devices_scanned ∧
    (processScanFile acc f).1.files_found = acc.1.files_found ∧
    (processScanFile acc f).1.files_uploaded + (processScanFile acc f).1.files_skipped
      + (processScanFile acc f).1.errors.length
      = acc.1.files_uploaded + acc.1.files_skipped + acc.1.errors.length + 1 := by
  unfold processScanFile
  cases f.readOk
  · simp; omega
  · simp only [Bool.not_true, Bool.false_eq_true, if_false]
    split
    next => simp; omega
    next =>
      cases hp : f.parseOk
      · simp; omega
      · simp only [if_true, store_workout_metadata]
        cases hd : f.dbOk
        · simp; omega
        · simp; omega

theorem foldl_processScanFile_counts (files : List FitFileEntry)
    (acc : ScanResults × ServerState) :
    (files.foldl processScanFile acc).1.devices_scanned = acc.1.devices_scanned ∧
    (files.foldl processScanFile acc).1.files_found = acc.1.files_found ∧
    (files.foldl processScanFile acc).1.files_uploaded
      + (files.foldl processScanFile acc).1.files_skipped
      + (files.foldl processScanFile acc).1.errors.length
      = acc.1.files_uploaded + acc.1.files_skipped + acc.1.errors.length
        + files.length := by
  induction files generalizing acc with
  | nil => simp
  | cons f fs ih =>
    simp only [List.foldl_cons, List.length_cons]
    obtain ⟨h1, h2, h3⟩ := ih (processScanFile acc f)
    obtain ⟨g1, g2, g3⟩ := processScanFile_counts acc f
    refine ⟨h1.trans g1, h2.trans g2, ?_⟩
    rw [h3, g3]
    omega

theorem foldl_processScanDevice_counts (devices : List (List FitFileEntry))
    (acc : ScanResults × ServerState) :
    (devices.foldl processScanDevice acc).1.devices_scanned = acc.1.devices_scanned ∧
    (devices.foldl processScanDevice acc).1.files_found
      = acc.1.files_found + (devices.map List.length).sum ∧
    (devices.foldl processScanDevice acc).1.files_uploaded
      + (devices.foldl processScanDevice acc).1.files_skipped
      + (devices.foldl processScanDevice acc).1.errors.length
      = acc.1.files_uploaded + acc.1.files_skipped + acc.1.errors.length
        + (devices.map List.length).sum := by
  induction devices generalizing acc with
  | nil => simp
  | cons dev devs ih =>
    simp only [List.foldl_cons, List.map_cons, List.sum_cons]
    obtain ⟨h1, h2, h3⟩ := ih (processScanDevice acc dev)
    obtain ⟨g1, g2, g3⟩ := foldl_processScanFile_counts dev
      ({ acc.1 with files_found := acc.1.files_found + dev.length }, acc.2)
    have g1' : (processScanDevice acc dev).1.devices_scanned
        = acc.1.devices_scanned := g1
    have g2' : (processScanDevice acc dev).1.files_found
        = acc.1.files_found + dev.length := g2
    have g3' : (processScanDevice acc dev).1.files_uploaded
        + (processScanDevice acc dev).1.files_skipped
        + (processScanDevice acc dev).1.errors.length
        = acc.1.files_uploaded + acc.1.files_skipped + acc.1.errors.length
          + dev.length := g3
    exact ⟨h1.trans g1', by omega, by omega⟩

/-- The database state with the two duplicate contents `[8]` and `[9]`
already imported, used in the C6 scenario. -/
def c6State : ServerState :=
  (upload_fit_file [9] true true (upload_fit_file [8] true true emptyState).2).2

/-- The single device of the C6 scenario: five discovered files of which
two are byte-duplicates of already-imported content and one fails to
decode. -/
def c6Devices : List (List FitFileEntry) :=
  [[{ content := [10] }, { content := [8] },
    { content := [11], parseOk := false }, { content := [9] },
    { content := [12] }]]

/-- C6: over any batch scan the aggregate reports the number of devices
scanned and files found, and every file is accounted for by exactly one
of uploaded / skipped-as-duplicate / recorded error — a failing file
adds an error entry without aborting the rest and nothing escapes the
scan.  In the concrete Scenario-E instance (5 files, 2 duplicates, 1
decode failure) the aggregate is found=5, uploaded=2, skipped=2 with
one error entry. -/
theorem c6_scan_aggregates :
    (∀ (devices : List (List FitFileEntry)) (st : ServerState),
      (scan_and_upload_fit_files devices st).1.devices_scanned = devices.length ∧
      (scan_and_upload_fit_files devices st).1.files_found
        = (devices.map List.length).sum ∧
      (scan_and_upload_fit_files devices st).1.files_uploaded
        + (scan_and_upload_fit_files devices st).1.files_skipped
        + (scan_and_upload_fit_files devices st).1.errors.length
        = (scan_and_upload_fit_files devices st).1.files_found) ∧
    (scan_and_upload_fit_files c6Devices c6State).1 =
      ⟨1, 5, 2, 2, [.parseError]⟩ := by
  constructor
  · intro devices st
    unfold scan_and_upload_fit_files
    obtain ⟨h1, h2, h3⟩ := foldl_processScanDevice_counts devices
      (⟨devices.length, 0, 0, 0, []⟩, st)
    refine ⟨h1, by simpa using h2, ?_⟩
    rw [h3, h2]
    simp
  · decide

end OCC

namespace OCC

/-- The `i`-th entry of `processed_sensor_data` is the processing of the
`i`-th input record against its original predecessor. -/
theorem processLoop_fst_get? (p? : Option SRecord) (l : List SRecord) (j : Nat) :
    (processLoop p? l).1.get? j
      = (l.get? j).map
          (fun r => (processRecord (if j = 0 then p? else l.get? (j - 1)) r).1) := by
  induction l generalizing p? j with
  | nil => simp [processLoop]
  | cons r rs ih =>
    cases j with
    | zero => simp [processLoop]
    | succ k =>
      simp only [processLoop, List.get?_cons_succ]
      rw [ih (some r) k]
      cases k with
      | zero => simp
      | succ m => simp

end OCC

namespace OCC

/-- C2: for a sample at index `i > 0` carrying distance and timestamp
whose predecessor also carries both (a raw decoded record, hence no
derived-speed field yet), a derived speed is recorded iff
`dt > 0`, `dd ≥ 0` and `0.14 ≤ dd/dt ≤ 22.0`; when recorded it equals
`dd/dt` and is adopted as the sample's effective speed whenever the
sample carried no provided speed. -/
theorem c2_speed_derivation (records : List SRecord) (i : Nat) (r p : SRecord)
    (d t pd pt : ℚ) (hi : 0 < i)
    (hr : records.get? i = some r) (hp : records.get? (i - 1) = some p)
    (hd : r.distance = some d) (ht : r.timestamp = some t)
    (hpd : p.distance = some pd) (hpt : p.timestamp = some pt)
    (hcs : r.calculated_speed = none) :
    (processedSensorData records).get? i = some (processRecord (some p) r).1 ∧
    ((processRecord (some p) r).1.calculated_speed.isSome ↔
      (0 < t - pt ∧ 0 ≤ d - pd ∧
        0.14 ≤ (d - pd) / (t - pt) ∧ (d - pd) / (t - pt) ≤ 22)) ∧
    ((processRecord (some p) r).1.calculated_speed.isSome →
      (processRecord (some p) r).1.calculated_speed = some ((d - pd) / (t - pt))) ∧
    ((processRecord (some p) r).1.calculated_speed.isSome → r.speed = none →
      (processRecord (some p) r).1.speed = some ((d - pd) / (t - pt))) := by
  have hgoal1 : (processedSensorData records).get? i
      = some (processRecord (some p) r).1 := by
    rw [processedSensorData, processLoop_fst_get?, hr]
    rw [if_neg (Nat.pos_iff_ne_zero.mp hi), hp]
    rfl
  refine ⟨hgoal1, ?_⟩
  simp only [processRecord, hd, ht, hpd, hpt]
  split_ifs with h1 h2 h3
  · cases hs : r.speed <;>
      simp_all
  · simp_all
  · simp_all
  · simp_all

def c2r0 : SRecord := { timestamp := some 0, distance := some 0 }
def c2r1 : SRecord := { timestamp := some 10, distance := some 100 }

/-- Witness for C2 at Scenario A: `(d=0, t=0)` then `(d=100, t=10)`
derives `10 m/s`, which is accepted and adopted. -/
theorem c2_speed_derivation_witness :
    (0 : Nat) < 1 ∧
    ((processedSensorData [c2r0, c2r1]).get? 1
        = some (processRecord (some c2r0) c2r1).1 ∧
      ((processRecord (some c2r0) c2r1).1.calculated_speed.isSome ↔
        (0 < (10 : ℚ) - 0 ∧ 0 ≤ (100 : ℚ) - 0 ∧
          0.14 ≤ ((100 : ℚ) - 0) / ((10 : ℚ) - 0) ∧
          ((100 : ℚ) - 0) / ((10 : ℚ) - 0) ≤ 22)) ∧
      ((processRecord (some c2r0) c2r1).1.calculated_speed.isSome →
        (processRecord (some c2r0) c2r1).1.calculated_speed
          = some (((100 : ℚ) - 0) / ((10 : ℚ) - 0))) ∧
      ((processRecord (some c2r0) c2r1).1.calculated_speed.isSome →
        c2r1.speed = none →
        (processRecord (some c2r0) c2r1).1.speed
          = some (((100 : ℚ) - 0) / ((10 : ℚ) - 0)))) :=
  ⟨Nat.one_pos,
    c2_speed_derivation [c2r0, c2r1] 1 c2r1 c2r0 100 10 0 0 Nat.one_pos
      rfl rfl rfl rfl rfl rfl rfl⟩

end OCC

namespace OCC

def c7r0 : SRecord := { timestamp := some 0 }
def c7r1 : SRecord := { timestamp := some 10, distance := some 50, speed := some 5 }

/-- C7 counterexample: the sample at index 1 carries its own distance
and timestamp but its predecessor has no distance, so by the claim it
"did not qualify for derivation" and its valid provided speed `5`
should enter "all speeds"; the code takes the derivation branch, the
inner neighbour check fails, and no validation or collection happens —
`all_speeds` stays empty. -/
theorem c7_counterexample :
    c7r0.distance = none ∧
    c7r1.speed = some 5 ∧ (0 : ℚ) ≤ 5 ∧ (5 : ℚ) ≤ 22 ∧
    allSpeeds [c7r0, c7r1] = [] := by
  refine ⟨rfl, rfl, by norm_num, by norm_num, ?_⟩
  norm_num [allSpeeds, processLoop, processRecord, c7r0, c7r1]

/-- C7 (amended): only a sample at index 0 or missing its *own*
distance or timestamp has its provided speed validated against
`0.0 ≤ v ≤ 22.0` — invalid values are nulled and excluded, valid ones
enter "all speeds"; a sample at `i > 0` with its own distance and
timestamp whose *neighbour* lacks them is neither validated nor
collected. -/
theorem c7_provided_speed_validation (records : List SRecord) (i : Nat)
    (r : SRecord) (v : ℚ)
    (hr : records.get? i = some r)
    (hq : i = 0 ∨ r.distance = none ∨ r.timestamp = none)
    (hs : r.speed = some v) :
    (processedSensorData records).get? i
      = some (processRecord (prevAt records i) r).1 ∧
    (0 ≤ v ∧ v ≤ 22 →
      (processRecord (prevAt records i) r).1.speed = some v ∧
      (processRecord (prevAt records i) r).2.2 = some v ∧
      (processRecord (prevAt records i) r).2.1 = none) ∧
    (¬(0 ≤ v ∧ v ≤ 22) →
      (processRecord (prevAt records i) r).1.speed = none ∧
      (processRecord (prevAt records i) r).2.2 = none ∧
      (processRecord (prevAt records i) r).2.1 = none) := by
  have hgoal1 : (processedSensorData records).get? i
      = some (processRecord (prevAt records i) r).1 := by
    rw [processedSensorData, processLoop_fst_get?, hr, prevAt]
    rfl
  refine ⟨hgoal1, ?_⟩
  rcases hq with hq | hq | hq
  · subst hq
    simp only [prevAt, if_true]
    simp only [processRecord, hs]
    split_ifs with hb <;> simp_all
  · cases hprev : prevAt records i <;>
      · simp only [processRecord, hq, hs]
        split_ifs with hb <;> simp_all
  · cases hprev : prevAt records i
    · simp only [processRecord, hq, hs]
      split_ifs with hb <;> simp_all
    · cases hdist : r.distance
      · simp only [processRecord, hq, hs, hdist]
        split_ifs with hb <;> simp_all
      · simp only [processRecord, hq, hs, hdist]
        split_ifs with hb <;> simp_all

def c7wr : SRecord := { speed := some 30 }

/-- Witness for the amended C7: a lone sample with no distance or
timestamp carrying the implausible provided speed `30 m/s` is nulled
and excluded from the aggregates. -/
theorem c7_provided_speed_validation_witness :
    ([c7wr].get? 0 = some c7wr) ∧
    (0 = 0 ∨ c7wr.distance = none ∨ c7wr.timestamp = none) ∧
    c7wr.speed = some 30 ∧
    (((processedSensorData [c7wr]).get? 0
        = some (processRecord (prevAt [c7wr] 0) c7wr).1) ∧
      (0 ≤ (30 : ℚ) ∧ (30 : ℚ) ≤ 22 →
        (processRecord (prevAt [c7wr] 0) c7wr).1.speed = some 30 ∧
        (processRecord (prevAt [c7wr] 0) c7wr).2.2 = some 30 ∧
        (processRecord (prevAt [c7wr] 0) c7wr).2.1 = none) ∧
      (¬(0 ≤ (30 : ℚ) ∧ (30 : ℚ) ≤ 22) →
        (processRecord (prevAt [c7wr] 0) c7wr).1.speed = none ∧
        (processRecord (prevAt [c7wr] 0) c7wr).2.2 = none ∧
        (processRecord (prevAt [c7wr] 0) c7wr).2.1 = none)) :=
  ⟨rfl, Or.inl rfl, rfl,
    c7_provided_speed_validation [c7wr] 0 c7wr 30 rfl (Or.inl rfl) rfl⟩

end OCC

namespace OCC

/-- Speed processing never touches a record's timestamp. -/
theorem processRecord_timestamp (p? : Option SRecord) (r : SRecord) :
    (processRecord p? r).1.timestamp = r.timestamp := by
  unfold processRecord
  split
  · split
    · dsimp only
      split_ifs <;> rfl
    · rfl
  · split
    · split_ifs <;> rfl
    · rfl

/-- Closed form of the chart-assembly fold: each series is the starting
accumulator followed by the per-signal projection of exactly the
timestamped records, in order. -/
theorem chartData_foldl (records : List SRecord) (cd : ChartData) :
    records.foldl chartStep cd =
      ⟨cd.timestamps ++ (records.filter (fun r => r.timestamp.isSome)).map SRecord.timestamp,
        cd.heart_rate ++ (records.filter (fun r => r.timestamp.isSome)).map SRecord.heart_rate,
        cd.power ++ (records.filter (fun r => r.timestamp.isSome)).map SRecord.power,
        cd.cadence ++ (records.filter (fun r => r.timestamp.isSome)).map SRecord.cadence,
        cd.speed ++ (records.filter (fun r => r.timestamp.isSome)).map chartSpeedOf,
        cd.distance ++ (records.filter (fun r => r.timestamp.isSome)).map SRecord.distance⟩ := by
  induction records generalizing cd with
  | nil => simp
  | cons r rs ih =>
    simp only [List.foldl_cons, List.filter_cons]
    cases hts : r.timestamp.isSome
    · simp only [Bool.false_eq_true, if_false]
      rw [ih]
      simp [chartStep, hts]
    · simp only [if_true]
      rw [ih]
      simp [chartStep, hts]

/-- Processing preserves, record by record, whether a timestamp is
present, hence the count of timestamped records. -/
theorem processLoop_filter_ts_length (p? : Option SRecord) (l : List SRecord) :
    ((processLoop p? l).1.filter (fun r => r.timestamp.isSome)).length
      = (l.filter (fun r => r.timestamp.isSome)).length := by
  induction l generalizing p? with
  | nil => rfl
  | cons r rs ih =>
    simp only [processLoop, List.filter_cons]
    rw [processRecord_timestamp]
    cases hts : r.timestamp.isSome
    · simpa using ih (some r)
    · simpa using ih (some r)

/-- C5: all six chart arrays produced for one workout have equal length,
equal to the number of timestamped samples, and hold the per-signal
value of the `j`-th timestamped sample at index `j` (a missing value is
a null marker at that index, not a skipped index). -/
theorem c5_chart_series_invariant (records : List SRecord) :
    ((chartData (processedSensorData records)).timestamps.length
        = (records.filter (fun r => r.timestamp.isSome)).length ∧
      (chartData (processedSensorData records)).heart_rate.length
        = (records.filter (fun r => r.timestamp.isSome)).length ∧
      (chartData (processedSensorData records)).power.length
        = (records.filter (fun r => r.timestamp.isSome)).length ∧
      (chartData (processedSensorData records)).cadence.length
        = (records.filter (fun r => r.timestamp.isSome)).length ∧
      (chartData (processedSensorData records)).speed.length
        = (records.filter (fun r => r.timestamp.isSome)).length ∧
      (chartData (processedSensorData records)).distance.length
        = (records.filter (fun r => r.timestamp.isSome)).length) ∧
    ((chartData (processedSensorData records)).timestamps
        = ((processedSensorData records).filter
            (fun r => r.timestamp.isSome)).map SRecord.timestamp ∧
      (chartData (processedSensorData records)).heart_rate
        = ((processedSensorData records).filter
            (fun r => r.timestamp.isSome)).map SRecord.heart_rate ∧
      (chartData (processedSensorData records)).power
        = ((processedSensorData records).filter
            (fun r => r.timestamp.isSome)).map SRecord.power ∧
      (chartData (processedSensorData records)).cadence
        = ((processedSensorData records).filter
            (fun r => r.timestamp.isSome)).map SRecord.cadence ∧
      (chartData (processedSensorData records)).speed
        = ((processedSensorData records).filter
            (fun r => r.timestamp.isSome)).map chartSpeedOf ∧
      (chartData (processedSensorData records)).distance
        = ((processedSensorData records).filter
            (fun r => r.timestamp.isSome)).map SRecord.distance) := by
  have hfold := chartData_foldl (processedSensorData records) ⟨[], [], [], [], [], []⟩
  have hlen := processLoop_filter_ts_length none records
  rw [chartData, hfold]
  simp only [List.nil_append]
  refine ⟨⟨?_, ?_, ?_, ?_, ?_, ?_⟩,
      by trivial, by trivial, by trivial, by trivial, by trivial, by trivial⟩ <;>
    simp [processedSensorData, hlen]

end OCC

namespace OCC

theorem foldl_max_choice (xs : List ℚ) (a : ℚ) :
    xs.foldl max a = a ∨ xs.foldl max a ∈ xs := by
  induction xs generalizing a with
  | nil => exact Or.inl rfl
  | cons x xs ih =>
    rcases ih (max a x) with h | h
    · rcases max_choice a x with hm | hm
      · exact Or.inl (by rw [List.foldl_cons, h, hm])
      · refine Or.inr ?_
        rw [List.foldl_cons, h, hm]
        exact List.mem_cons_self x xs
    · exact Or.inr (List.mem_cons_of_mem x h)

theorem le_foldl_max_init (xs : List ℚ) (a : ℚ) : a ≤ xs.foldl max a := by
  induction xs generalizing a with
  | nil => exact le_refl a
  | cons x xs ih => exact le_trans (le_max_left a x) (ih (max a x))

theorem le_foldl_max (xs : List ℚ) (a x : ℚ) (hx : x ∈ xs) :
    x ≤ xs.foldl max a := by
  induction xs generalizing a with
  | nil => cases hx
  | cons y ys ih =>
    rcases List.mem_cons.mp hx with h | h
    · subst h
      exact le_trans (le_max_right a x) (le_foldl_max_init ys (max a x))
    · exact ih (max a y) h

theorem maxQ_mem (l : List ℚ) (h : l ≠ []) : maxQ l ∈ l := by
  match l with
  | x :: xs =>
    rcases foldl_max_choice xs x with h1 | h1
    · rw [maxQ, h1]
      exact List.mem_cons_self x xs
    · rw [maxQ]
      exact List.mem_cons_of_mem x h1

theorem le_maxQ (l : List ℚ) (x : ℚ) (hx : x ∈ l) : x ≤ maxQ l := by
  match l with
  | y :: ys =>
    rcases List.mem_cons.mp hx with h | h
    · subst h
      exact le_foldl_max_init ys x
    · exact le_foldl_max ys y x h

theorem foldl_min_choice (xs : List ℚ) (a : ℚ) :
    xs.foldl min a = a ∨ xs.foldl min a ∈ xs := by
  induction xs generalizing a with
  | nil => exact Or.inl rfl
  | cons x xs ih =>
    rcases ih (min a x) with h | h
    · rcases min_choice a x with hm | hm
      · exact Or.inl (by rw [List.foldl_cons, h, hm])
      · refine Or.inr ?_
        rw [List.foldl_cons, h, hm]
        exact List.mem_cons_self x xs
    · exact Or.inr (List.mem_cons_of_mem x h)

theorem foldl_min_le_init (xs : List ℚ) (a : ℚ) : xs.foldl min a ≤ a := by
  induction xs generalizing a with
  | nil => exact le_refl a
  | cons x xs ih => exact le_trans (ih (min a x)) (min_le_left a x)

theorem foldl_min_le (xs : List ℚ) (a x : ℚ) (hx : x ∈ xs) :
    xs.foldl min a ≤ x := by
  induction xs generalizing a with
  | nil => cases hx
  | cons y ys ih =>
    rcases List.mem_cons.mp hx with h | h
    · subst h
      exact le_trans (foldl_min_le_init ys (min a x)) (min_le_right a x)
    · exact ih (min a y) h

theorem minQ_mem (l : List ℚ) (h : l ≠ []) : minQ l ∈ l := by
  match l with
  | x :: xs =>
    rcases foldl_min_choice xs x with h1 | h1
    · rw [minQ, h1]
      exact List.mem_cons_self x xs
    · rw [minQ]
      exact List.mem_cons_of_mem x h1

theorem minQ_le (l : List ℚ) (x : ℚ) (hx : x ∈ l) : minQ l ≤ x := by
  match l with
  | y :: ys =>
    rcases List.mem_cons.mp hx with h | h
    · subst h
      exact foldl_min_le_init ys x
    · exact foldl_min_le ys y x h

theorem avgQ_pos_of_bounds (l : List ℚ) (h : l ≠ [])
    (hb : ∀ x ∈ l, (0.14 : ℚ) ≤ x) : 0 < avgQ l := by
  have hsum : 0 < l.sum := by
    match l with
    | x :: xs =>
      have hx := hb x (List.mem_cons_self x xs)
      have hxs : 0 ≤ xs.sum :=
        List.sum_nonneg fun y hy =>
          le_trans (by norm_num) (hb y (List.mem_cons_of_mem x hy))
      have : (0 : ℚ) < x := lt_of_lt_of_le (by norm_num) hx
      rw [List.sum_cons]
      linarith
  have hlen : (0 : ℚ) < (l.length : ℚ) := by
    exact_mod_cast List.length_pos.mpr h
  exact div_pos hsum hlen

end OCC

namespace OCC

/-- Every value appended to `calculated_speeds` passed the plausibility
bounds. -/
theorem processRecord_calc_bounds (p? : Option SRecord) (r : SRecord) :
    ∀ v : ℚ, (processRecord p? r).2.1 = some v → 0.14 ≤ v ∧ v ≤ 22 := by
  unfold processRecord
  split
  · split
    · dsimp only
      split_ifs with h1 h2 h3
      · intro v hv
        dsimp only at hv
        simp only [Option.some.injEq] at hv
        exact hv ▸ h3
      all_goals intro v hv
      all_goals simp at hv
    · intro v hv
      simp at hv
  · split
    · split_ifs with hb
      all_goals intro v hv
      all_goals simp at hv
    · intro v hv
      simp at hv

/-- Whenever a derived speed is appended, an effective speed is appended
to `all_speeds` in the same iteration. -/
theorem processRecord_calc_all (p? : Option SRecord) (r : SRecord) :
    (processRecord p? r).2.1 = none ∨ (processRecord p? r).2.2.isSome = true := by
  unfold processRecord
  split
  · split
    · dsimp only
      split_ifs with h1 h2 h3
      · right
        cases hs : r.speed <;> simp [hs]
      all_goals left
      all_goals rfl
    · left
      rfl
  · split
    · split_ifs with hb <;> left <;> rfl
    · left
      rfl

theorem processLoop_calc_bounds (p? : Option SRecord) (l : List SRecord) :
    ∀ v ∈ (processLoop p? l).2.1, 0.14 ≤ v ∧ v ≤ 22 := by
  induction l generalizing p? with
  | nil => intro v hv; cases hv
  | cons r rs ih =>
    intro v hv
    simp only [processLoop, List.mem_append] at hv
    rcases hv with hv | hv
    · rcases hstep : (processRecord p? r).2.1 with _ | w
      · rw [hstep] at hv; cases hv
      · rw [hstep] at hv
        simp only [Option.toList_some, List.mem_singleton] at hv
        subst hv
        exact processRecord_calc_bounds p? r v hstep
    · exact ih (some r) v hv

theorem processLoop_all_ne_nil (p? : Option SRecord) (l : List SRecord)
    (h : (processLoop p? l).2.1 ≠ []) : (processLoop p? l).2.2 ≠ [] := by
  induction l generalizing p? with
  | nil => exact absurd rfl h
  | cons r rs ih =>
    simp only [processLoop] at h ⊢
    rcases hstep : (processRecord p? r).2.1 with _ | w
    · rw [hstep] at h
      simp only [Option.toList_none, List.nil_append] at h
      have hrest := ih (some r) h
      intro hc
      exact hrest (List.append_eq_nil.mp hc).2
    · rcases processRecord_calc_all p? r with hnone | hsome
      · rw [hstep] at hnone; cases hnone
      · obtain ⟨w2, hw2⟩ := Option.isSome_iff_exists.mp hsome
        rw [hw2]
        simp

/-- Bounds on every derived speed in the whole run. -/
theorem calculatedSpeeds_bounds (records : List SRecord) :
    ∀ v ∈ calculatedSpeeds records, 0.14 ≤ v ∧ v ≤ 22 :=
  processLoop_calc_bounds none records

theorem allSpeeds_ne_nil_of_calc (records : List SRecord)
    (h : calculatedSpeeds records ≠ []) : allSpeeds records ≠ [] :=
  processLoop_all_ne_nil none records h

end OCC

namespace OCC

/-- C8: when `all_speeds` is non-empty its avg/max/min are computed and
(absent a session-provided value) become the speed summary; when the
derived collection is also non-empty, its avg/max/min are computed as
well and the derived aggregate — not the provided-speed aggregate — is
what `store_workout_metadata` stores as the canonical avg/max speed. -/
theorem c8_speed_aggregate_selection (sessionAvg sessionMax : Option ℚ)
    (records : List SRecord) (hall : allSpeeds records ≠ []) :
    (truthy sessionAvg = false →
      (finalizeSpeedMetrics sessionAvg sessionMax (allSpeeds records)
          (calculatedSpeeds records)).speedAvg
        = some (avgQ (allSpeeds records))) ∧
    (truthy sessionMax = false →
      (finalizeSpeedMetrics sessionAvg sessionMax (allSpeeds records)
          (calculatedSpeeds records)).speedMax
        = some (maxQ (allSpeeds records))) ∧
    (calculatedSpeeds records ≠ [] →
      (finalizeSpeedMetrics sessionAvg sessionMax (allSpeeds records)
          (calculatedSpeeds records)).calcAvg
          = some (avgQ (calculatedSpeeds records)) ∧
        (finalizeSpeedMetrics sessionAvg sessionMax (allSpeeds records)
            (calculatedSpeeds records)).calcMax
          = some (maxQ (calculatedSpeeds records)) ∧
        (finalizeSpeedMetrics sessionAvg sessionMax (allSpeeds records)
            (calculatedSpeeds records)).calcMin
          = some (minQ (calculatedSpeeds records)) ∧
        storedAvgSpeed (finalizeSpeedMetrics sessionAvg sessionMax
            (allSpeeds records) (calculatedSpeeds records))
          = some (avgQ (calculatedSpeeds records)) ∧
        storedMaxSpeed (finalizeSpeedMetrics sessionAvg sessionMax
            (allSpeeds records) (calculatedSpeeds records))
          = some (maxQ (calculatedSpeeds records))) := by
  have hallE : (allSpeeds records).isEmpty = false := by
    cases hl : (allSpeeds records).isEmpty
    · rfl
    · exact absurd (List.isEmpty_iff.mp hl) hall
  refine ⟨?_, ?_, ?_⟩
  · intro hta
    simp [finalizeSpeedMetrics, hallE, hta]
  · intro htm
    simp [finalizeSpeedMetrics, hallE, htm]
  · intro hcalc
    have hcalcE : (calculatedSpeeds records).isEmpty = false := by
      cases hl : (calculatedSpeeds records).isEmpty
      · rfl
      · exact absurd (List.isEmpty_iff.mp hl) hcalc
    have hbound : ∀ v ∈ calculatedSpeeds records, (0.14 : ℚ) ≤ v :=
      fun v hv => (calculatedSpeeds_bounds records v hv).1
    have havgpos : 0 < avgQ (calculatedSpeeds records) :=
      avgQ_pos_of_bounds (calculatedSpeeds records) hcalc hbound
    have hmaxpos : 0 < maxQ (calculatedSpeeds records) :=
      lt_of_lt_of_le (by norm_num)
        (hbound _ (maxQ_mem (calculatedSpeeds records) hcalc))
    have htravg : truthy (some (avgQ (calculatedSpeeds records))) = true := by
      simp [truthy]
      exact ne_of_gt havgpos
    have htrmax : truthy (some (maxQ (calculatedSpeeds records))) = true := by
      simp [truthy]
      exact ne_of_gt hmaxpos
    refine ⟨?_, ?_, ?_, ?_, ?_⟩ <;>
      simp [finalizeSpeedMetrics, hallE, hcalcE, storedAvgSpeed, storedMaxSpeed,
        orFalsy, htravg, htrmax]

def c8Records : List SRecord :=
  [{ timestamp := some 0, distance := some 0 },
    { timestamp := some 10, distance := some 100 }]

/-- Witness for C8: Scenario A yields `all_speeds = calculated_speeds
= [10]`, and the stored canonical summary is the derived aggregate. -/
theorem c8_speed_aggregate_selection_witness :
    allSpeeds c8Records ≠ [] ∧
    ((truthy none = false →
      (finalizeSpeedMetrics none none (allSpeeds c8Records)
          (calculatedSpeeds c8Records)).speedAvg
        = some (avgQ (allSpeeds c8Records))) ∧
    (truthy none = false →
      (finalizeSpeedMetrics none none (allSpeeds c8Records)
          (calculatedSpeeds c8Records)).speedMax
        = some (maxQ (allSpeeds c8Records))) ∧
    (calculatedSpeeds c8Records ≠ [] →
      (finalizeSpeedMetrics none none (allSpeeds c8Records)
          (calculatedSpeeds c8Records)).calcAvg
          = some (avgQ (calculatedSpeeds c8Records)) ∧
        (finalizeSpeedMetrics none none (allSpeeds c8Records)
            (calculatedSpeeds c8Records)).calcMax
          = some (maxQ (calculatedSpeeds c8Records)) ∧
        (finalizeSpeedMetrics none none (allSpeeds c8Records)
            (calculatedSpeeds c8Records)).calcMin
          = some (minQ (calculatedSpeeds c8Records)) ∧
        storedAvgSpeed (finalizeSpeedMetrics none none
            (allSpeeds c8Records) (calculatedSpeeds c8Records))
          = some (avgQ (calculatedSpeeds c8Records)) ∧
        storedMaxSpeed (finalizeSpeedMetrics none none
            (allSpeeds c8Records) (calculatedSpeeds c8Records))
          = some (maxQ (calculatedSpeeds c8Records)))) :=
  ⟨by norm_num [allSpeeds, processLoop, processRecord, c8Records],
    c8_speed_aggregate_selection none none c8Records
      (by norm_num [allSpeeds, processLoop, processRecord, c8Records])⟩

end OCC

namespace OCC

/-- A `filterMap` keeps the surviving images in their input order: the
output, re-wrapped in `some`, is a sublist of the pointwise image. -/
theorem filterMap_map_some_sublist {α β : Type} (f : α → Option β) (l : List α) :
    ((l.filterMap f).map some).Sublist (l.map f) := by
  induction l with
  | nil => simp
  | cons a as ih =>
    cases hfa : f a
    · simp only [List.filterMap_cons, hfa, List.map_cons]
      exact ih.cons (none : Option β)
    · simp only [List.filterMap_cons, hfa, List.map_cons]
      exact ih.cons₂ _

/-- The per-point part of claim C4: the heuristic semicircle conversion
is applied independently to each coordinate exactly when its magnitude
exceeds 180, and the point survives iff the converted pair is in range
and not the (0,0) sentinel, carrying the converted coordinates. -/
def gpsPointClaim (p : GpsPoint) (rawLat rawLon : ℚ) : Prop :=
  ((processGpsPoint p).isSome = true ↔
    (-90 ≤ convertCoordinate rawLat ∧ convertCoordinate rawLat ≤ 90 ∧
      -180 ≤ convertCoordinate rawLon ∧ convertCoordinate rawLon ≤ 180 ∧
      ¬(convertCoordinate rawLat = 0 ∧ convertCoordinate rawLon = 0))) ∧
  (∀ q, processGpsPoint p = some q →
    q.lat = convertCoordinate rawLat ∧ q.lon = convertCoordinate rawLon ∧
    q.timestamp = p.timestamp ∧ q.altitude = p.altitude) ∧
  (180 < |rawLat| → convertCoordinate rawLat = rawLat * (180 / 2 ^ 31)) ∧
  (|rawLat| ≤ 180 → convertCoordinate rawLat = rawLat) ∧
  (180 < |rawLon| → convertCoordinate rawLon = rawLon * (180 / 2 ^ 31)) ∧
  (|rawLon| ≤ 180 → convertCoordinate rawLon = rawLon)

/-- The whole-list part of claim C4: accepted points keep their input
order, and the stats block reports their count, first and last points,
and the min/max bounding box of the accepted set. -/
def gpsListClaim (points : List GpsPoint) : Prop :=
  ((processedGpsData points).map some).Sublist (points.map processGpsPoint) ∧
  (∀ (n : Nat) (q0 q1 : ProcessedGpsPoint) (b : GpsBounds),
    gpsStats (processedGpsData points) = some (n, q0, q1, b) →
    n = (processedGpsData points).length ∧
    (processedGpsData points).head? = some q0 ∧
    (processedGpsData points).getLast? = some q1 ∧
    (b.north ∈ (processedGpsData points).map ProcessedGpsPoint.lat ∧
      ∀ x ∈ (processedGpsData points).map ProcessedGpsPoint.lat, x ≤ b.north) ∧
    (b.south ∈ (processedGpsData points).map ProcessedGpsPoint.lat ∧
      ∀ x ∈ (processedGpsData points).map ProcessedGpsPoint.lat, b.south ≤ x) ∧
    (b.east ∈ (processedGpsData points).map ProcessedGpsPoint.lon ∧
      ∀ x ∈ (processedGpsData points).map ProcessedGpsPoint.lon, x ≤ b.east) ∧
    (b.west ∈ (processedGpsData points).map ProcessedGpsPoint.lon ∧
      ∀ x ∈ (processedGpsData points).map ProcessedGpsPoint.lon, b.west ≤ x))

/-- C4: GPS candidate handling — independent semicircle conversion,
range-and-sentinel validation, order preservation, and first/last/
bounding-box statistics over the accepted points. -/
theorem c4_gps_validation (points : List GpsPoint) (p : GpsPoint)
    (rawLat rawLon : ℚ)
    (hla : p.lat = some rawLat) (hlo : p.lon = some rawLon)
    (hne : processedGpsData points ≠ []) :
    gpsPointClaim p rawLat rawLon ∧ gpsListClaim points := by
  constructor
  · refine ⟨?_, ?_, ?_, ?_, ?_, ?_⟩
    · simp only [processGpsPoint, hla, hlo]
      split_ifs with hcond
      · simpa using hcond
      · simpa using hcond
    · intro q hq
      simp only [processGpsPoint, hla, hlo] at hq
      split_ifs at hq with hcond
      simp only [Option.some.injEq] at hq
      subst hq
      exact ⟨rfl, rfl, rfl, rfl⟩
    · intro hgt
      rw [convertCoordinate, if_pos hgt]
    · intro hle
      rw [convertCoordinate, if_neg (not_lt.mpr hle)]
    · intro hgt
      rw [convertCoordinate, if_pos hgt]
    · intro hle
      rw [convertCoordinate, if_neg (not_lt.mpr hle)]
  · constructor
    · exact filterMap_map_some_sublist processGpsPoint points
    · intro n q0 q1 b hstats
      match hl : processedGpsData points with
      | [] => exact absurd hl hne
      | q :: qs =>
        rw [hl] at hstats
        simp only [gpsStats, Option.some.injEq, Prod.mk.injEq] at hstats
        obtain ⟨hn, hq0, hq1, hb⟩ := hstats
        subst hn hq0 hq1 hb
        have hlats : (q :: qs).map ProcessedGpsPoint.lat ≠ [] := by simp
        have hlons : (q :: qs).map ProcessedGpsPoint.lon ≠ [] := by simp
        refine ⟨rfl, rfl, ?_, ?_, ?_, ?_, ?_⟩
        · rw [List.getLast?_cons, List.getLastD_eq_getLast?]
        · exact ⟨maxQ_mem _ hlats, fun x hx => le_maxQ _ x hx⟩
        · exact ⟨minQ_mem _ hlats, fun x hx => minQ_le _ x hx⟩
        · exact ⟨maxQ_mem _ hlons, fun x hx => le_maxQ _ x hx⟩
        · exact ⟨minQ_mem _ hlons, fun x hx => minQ_le _ x hx⟩

def c4Points : List GpsPoint :=
  [{ lat := some 1000000000, lon := some 10 },
    { lat := some 0, lon := some 0 },
    { lat := some 50, lon := some 60 }]

/-- The concrete accepted points of the C4 witness list: the converted
semicircle point and the in-range point, with the (0,0) sentinel
dropped. -/
theorem c4Points_processed :
    processedGpsData c4Points =
      [{ lat := 87890625 / 1048576, lon := 10, timestamp := none, altitude := none },
        { lat := 50, lon := 60, timestamp := none, altitude := none }] := by
  norm_num [processedGpsData, c4Points, processGpsPoint, convertCoordinate,
    List.filterMap_cons, abs]

/-- Witness for C4: a semicircle-encoded latitude (Scenario C), the
(0,0) sentinel, and an in-range point. -/
theorem c4_gps_validation_witness :
    (c4Points.head? = some { lat := some 1000000000, lon := some 10 }) ∧
    ({ lat := some 1000000000, lon := some 10 } : GpsPoint).lat
      = some 1000000000 ∧
    ({ lat := some 1000000000, lon := some 10 } : GpsPoint).lon = some 10 ∧
    processedGpsData c4Points ≠ [] ∧
    (gpsPointClaim { lat := some 1000000000, lon := some 10 } 1000000000 10 ∧
      gpsListClaim c4Points) :=
  ⟨rfl, rfl, rfl,
    by rw [c4Points_processed]; exact List.cons_ne_nil _ _,
    c4_gps_validation c4Points { lat := some 1000000000, lon := some 10 }
      1000000000 10 rfl rfl
      (by rw [c4Points_processed]; exact List.cons_ne_nil _ _)⟩

end OCC

namespace OCC

def c10Meta : ActivityMeta := { duration_s := some 0 }

/-- C10 counterexample: with a *present* session duration of `0` and one
power sample of `250 W`, the claim's formula gives
`tss = (250/250)^2 * (0/3600) * 100 = 0`, but the Python
`duration_s or len(...)` also falls back on a zero duration, so the
code produces `(1)^2 * (1/3600) * 100 = 1/36`. -/
theorem c10_counterexample :
    c10Meta.duration_s = some 0 ∧
    (applyPowerTss c10Meta [some 250]).tss = some (1 / 36) ∧
    (applyPowerTss c10Meta [some 250]).tss ≠
      some (((250 : ℚ) / 250) ^ 2 * ((0 : ℚ) / 3600) * 100) := by
  refine ⟨rfl, ?_, ?_⟩ <;>
    norm_num [applyPowerTss, c10Meta, List.filterMap_cons]

/-- C10 (amended): whenever some record carries non-null power, the
session-provided average power is overwritten by the stream mean and
`tss = (mean/250)^2 * (duration_s/3600) * 100`, where `duration_s`
falls back to the count of non-null power samples when the session
duration is absent *or zero* (Python falsiness). -/
theorem c10_power_tss (meta : ActivityMeta) (power : List (Option ℚ))
    (hp : power.any (fun p => p.isSome) = true) :
    (applyPowerTss meta power).avg_power
      = some ((power.filterMap id).sum / ((power.filterMap id).length : ℚ)) ∧
    (applyPowerTss meta power).duration_s = meta.duration_s ∧
    (meta.duration_s = none →
      (applyPowerTss meta power).tss
        = some (((power.filterMap id).sum / ((power.filterMap id).length : ℚ) / 250) ^ 2
            * (((power.filterMap id).length : ℚ) / 3600) * 100)) ∧
    (∀ dur : ℚ, meta.duration_s = some dur → dur ≠ 0 →
      (applyPowerTss meta power).tss
        = some (((power.filterMap id).sum / ((power.filterMap id).length : ℚ) / 250) ^ 2
            * (dur / 3600) * 100)) ∧
    (meta.duration_s = some 0 →
      (applyPowerTss meta power).tss
        = some (((power.filterMap id).sum / ((power.filterMap id).length : ℚ) / 250) ^ 2
            * (((power.filterMap id).length : ℚ) / 3600) * 100)) := by
  obtain ⟨q, hqmem, hqsome⟩ := List.any_eq_true.mp hp
  have hpe : power.isEmpty = false := by
    cases power
    · cases hqmem
    · rfl
  have hve : (power.filterMap id).isEmpty = false := by
    obtain ⟨v, hv⟩ := Option.isSome_iff_exists.mp hqsome
    have : v ∈ power.filterMap id :=
      List.mem_filterMap.mpr ⟨q, hqmem, by rw [hv]; rfl⟩
    cases hfe : power.filterMap id
    · rw [hfe] at this
      cases this
    · rfl
  simp only [applyPowerTss, hpe, hp, Bool.not_false, Bool.true_and, if_true, hve,
    Bool.false_eq_true, if_false]
  refine ⟨by trivial, by trivial, ?_, ?_, ?_⟩
  · intro hd
    simp [hd]
  · intro dur hd hdz
    simp [hd, hdz]
  · intro hd
    simp [hd]

/-- Witness for the amended C10: one `250 W` sample and no session
duration gives the count fallback `1 s` and `tss = 1/36`. -/
theorem c10_power_tss_witness :
    ([some (250 : ℚ), none].any (fun p => p.isSome) = true) ∧
    ((applyPowerTss {} [some 250, none]).avg_power
      = some ((([some (250 : ℚ), none].filterMap id).sum
          / (([some (250 : ℚ), none].filterMap id).length : ℚ))) ∧
    (applyPowerTss {} [some 250, none]).duration_s = ({} : ActivityMeta).duration_s ∧
    (({} : ActivityMeta).duration_s = none →
      (applyPowerTss {} [some 250, none]).tss
        = some (((([some (250 : ℚ), none].filterMap id).sum
              / (([some (250 : ℚ), none].filterMap id).length : ℚ) / 250) ^ 2
            * ((([some (250 : ℚ), none].filterMap id).length : ℚ) / 3600) * 100))) ∧
    (∀ dur : ℚ, ({} : ActivityMeta).duration_s = some dur → dur ≠ 0 →
      (applyPowerTss {} [some 250, none]).tss
        = some (((([some (250 : ℚ), none].filterMap id).sum
              / (([some (250 : ℚ), none].filterMap id).length : ℚ) / 250) ^ 2
            * (dur / 3600) * 100))) ∧
    (({} : ActivityMeta).duration_s = some 0 →
      (applyPowerTss {} [some 250, none]).tss
        = some (((([some (250 : ℚ), none].filterMap id).sum
              / (([some (250 : ℚ), none].filterMap id).length : ℚ) / 250) ^ 2
            * ((([some (250 : ℚ), none].filterMap id).length : ℚ) / 3600) * 100)))) :=
  ⟨rfl, c10_power_tss {} [some 250, none] rfl⟩

end OCC
